import Mathlib

/-! Shallow embedding of `src/pyphoxi/phoxi.py` (class `PhoXiSensor`).

Modelling conventions:
* byte buffers are `List ℕ` whose entries are byte values;
* `numpy` `float32` values read from packets are decoded exactly from their
  IEEE-754 single-precision bit pattern into `ℚ` (the finite encodings; the
  exponent-255 encodings — infinities and NaN — occur in no claim treated
  here), and the subsequent real arithmetic of `_process_packet` is modelled
  exactly over `ℚ`;
* `numpy` `int32` scalar arithmetic wraps modulo `2 ^ 32` (`int32Wrap`);
* the cast `astype("uint8")` truncates toward zero (`ratTrunc`); its
  behaviour outside `[0, 256)` is undefined in the source and not modelled
  further;
* fallible steps (`frombuffer` size checks, `reshape` element-count checks,
  indexing an empty array, reducing an empty array, and the division by zero
  in the grayscale normalization) are modelled with `Except`;
* the socket is modelled by the sequence of results its `recv` calls return
  (`RecvEvent`), and the connect step of `start` by its outcome. -/

deriving instance DecidableEq for Except

namespace PyPhoxi

/-- Python slice `l[a:b]` (with `0 ≤ a ≤ b`) on a byte buffer. -/
def pySlice (l : List ℕ) (a b : ℕ) : List ℕ :=
  (l.drop a).take (b - a)

/-- Little-endian 32-bit word value of four bytes. -/
def wordOfBytes (b0 b1 b2 b3 : ℕ) : ℕ :=
  b0 + 256 * b1 + 65536 * b2 + 16777216 * b3

/-- Signed `int32` value of a little-endian 4-byte group, as
`np.frombuffer(..., np.int32)` reads it. -/
def int32OfBytes (b0 b1 b2 b3 : ℕ) : ℤ :=
  let u := wordOfBytes b0 b1 b2 b3
  if u < 2 ^ 31 then (u : ℤ) else (u : ℤ) - 2 ^ 32

/-- Exact value of the IEEE-754 single-precision number encoded by a
little-endian 4-byte group, as `np.frombuffer(..., np.float32)` reads it:
`(-1)^sign * (1 + mantissa / 2^23) * 2^(e - 127)` for a biased exponent
`e ≠ 0`, and the denormal value `mantissa / 2^23 * 2^(-126)` for `e = 0`
(the exponent-255 encodings — infinity and NaN — occur in no claim treated
here and the normalized formula is applied to them blindly). -/
def float32OfBytes (b0 b1 b2 b3 : ℕ) : ℚ :=
  let u := wordOfBytes b0 b1 b2 b3
  let sign : ℕ := u / 2 ^ 31
  let e : ℕ := u / 2 ^ 23 % 256
  let m : ℕ := u % 2 ^ 23
  let frac : ℚ := (m : ℚ) / ((2 ^ 23 : ℕ) : ℚ)
  let mag : ℚ :=
    if e = 0 then frac / ((2 ^ 126 : ℕ) : ℚ)
    else if 127 ≤ e then (1 + frac) * ((2 ^ (e - 127) : ℕ) : ℚ)
    else (1 + frac) / ((2 ^ (127 - e) : ℕ) : ℚ)
  if sign = 1 then -mag else mag

/-- Successive 4-byte groups of a buffer. -/
def chunks4 : List ℕ → List (ℕ × ℕ × ℕ × ℕ)
  | b0 :: b1 :: b2 :: b3 :: rest => (b0, b1, b2, b3) :: chunks4 rest
  | _ => []

/-- Errors the decoding path of the source can raise. -/
inductive DecodeErr where
  | bufferSizeMismatch
  | indexOutOfRange
  | reshapeMismatch
  | emptyReduce
  | divByZero
deriving DecidableEq

/-- `np.frombuffer(bs, np.int32)`: the buffer length must be a multiple of
the 4-byte item size. -/
def frombufferInt32 (bs : List ℕ) : Except DecodeErr (List ℤ) :=
  if bs.length % 4 = 0 then
    .ok ((chunks4 bs).map fun c => int32OfBytes c.1 c.2.1 c.2.2.1 c.2.2.2)
  else .error .bufferSizeMismatch

/-- `np.frombuffer(bs, np.float32)`: the buffer length must be a multiple of
the 4-byte item size. -/
def frombufferFloat32 (bs : List ℕ) : Except DecodeErr (List ℚ) :=
  if bs.length % 4 = 0 then
    .ok ((chunks4 bs).map fun c => float32OfBytes c.1 c.2.1 c.2.2.1 c.2.2.2)
  else .error .bufferSizeMismatch

/-- Rows of the row-major reshape of a flat list to `(h, w)`. -/
def toRows (h w : ℕ) (l : List ℚ) : List (List ℚ) :=
  match h with
  | 0 => []
  | Nat.succ n => l.take w :: toRows n w (l.drop w)

/-- `reshape(h, w)`: demands the exact element count. -/
def reshapeChecked (h w : ℕ) (l : List ℚ) : Except DecodeErr (List (List ℚ)) :=
  if l.length = h * w then .ok (toRows h w l) else .error .reshapeMismatch

/-- Truncation of a rational toward zero, the rounding a C float-to-integer
cast performs. -/
def ratTrunc (q : ℚ) : ℤ := Int.tdiv q.num (q.den : ℤ)

/-- `astype("uint8")` on one pixel value (in-range values; the out-of-range
behaviour of the cast is undefined in the source). -/
def toUint8 (q : ℚ) : ℤ := ratTrunc q

/-- One pixel of the min-max normalization
`(v - min) / (max - min) * 255` cast to `uint8`. -/
def normPixel (gmin gmax v : ℚ) : ℤ :=
  toUint8 ((v - gmin) / (gmax - gmin) * 255)

/-- Decoded frame: `frame_id`, normalized grayscale, metric depth. -/
structure Frame where
  frameId : ℤ
  gray : List (List ℤ)
  depth : List (List ℚ)
deriving DecidableEq

/-- `PhoXiSensor._process_packet` (phoxi.py lines 139-157): `frame_id` from
bytes `[8, header_size)`, the grayscale plane from the next
`num_pixels * 4` bytes, the depth plane from the remainder; both planes
reshaped to `(height, width)`; depth scaled by `1e-3` to meters; grayscale
min-max normalized and cast to `uint8`.  The `min`/`max` reductions are
taken over the joined rows of the reshaped plane, which holds exactly the
elements of the 2-d array the source reduces over. -/
def processPacket (headerSize numPixels height width : ℕ) (packet : List ℕ) :
    Except DecodeErr Frame :=
  match frombufferInt32 (pySlice packet 8 headerSize) with
  | .error e => .error e
  | .ok frameIds =>
    match frameIds with
    | [] => .error .indexOutOfRange
    | frameId :: _ =>
      match frombufferFloat32 (pySlice packet headerSize (headerSize + numPixels * 4)) with
      | .error e => .error e
      | .ok grayFlat =>
        match frombufferFloat32 (packet.drop (numPixels * 4 + headerSize)) with
        | .error e => .error e
        | .ok depthFlat =>
          match reshapeChecked height width grayFlat with
          | .error e => .error e
          | .ok grayRows =>
            match reshapeChecked height width depthFlat with
            | .error e => .error e
            | .ok depthRows =>
              let depthMeters := depthRows.map (List.map fun v => v * (1 / 1000))
              match grayRows.flatten with
              | [] => .error .emptyReduce
              | g0 :: grest =>
                let gmin := grest.foldl min g0
                let gmax := grest.foldl max g0
                if gmax - gmin = 0 then .error .divByZero
                else
                  .ok { frameId := frameId,
                        gray := grayRows.map (List.map (normPixel gmin gmax)),
                        depth := depthMeters }

/-- One result of a `recv` call on the socket: a delivered chunk of bytes,
or a `socket.timeout`. -/
inductive RecvEvent where
  | chunk (bs : List ℕ)
  | timedOut

/-- Accumulation loop of `_get_packet` (phoxi.py lines 129-135): while the
accumulated length is below `packet_size`, receive; a timeout breaks the
loop; exhausting the event list below `packet_size` means the socket would
block forever (`none`). -/
def getPacketLoop (packetSize : ℕ) : List RecvEvent → List ℕ → Option (List ℕ)
  | [], data => if packetSize ≤ data.length then some data else none
  | RecvEvent.timedOut :: _, data => some data
  | RecvEvent.chunk c :: rest, data =>
    if packetSize ≤ data.length then some data
    else getPacketLoop packetSize rest (data ++ c)

/-- `PhoXiSensor._get_packet` (phoxi.py lines 126-137): accumulate, then
slice the buffer to `packet_size` bytes. -/
def getPacket (packetSize : ℕ) (evs : List RecvEvent) : Option (List ℕ) :=
  (getPacketLoop packetSize evs []).map fun d => d.take packetSize

/-- Wraparound of `numpy` `int32` scalar arithmetic. -/
def int32Wrap (z : ℤ) : ℤ := (z + 2 ^ 31) % 2 ^ 32 - 2 ^ 31

/-- Values `_setup` stores. -/
structure SetupVals where
  numPixels : ℤ
  headerSize : ℤ
  payloadSize : ℤ
  packetSize : ℤ
deriving DecidableEq

/-- `PhoXiSensor._setup` (phoxi.py lines 61-71), given the `(height, width)`
learned from the first 8 bytes of the handshake packet.  `height` and
`width` are `np.int32` scalars, so the products wrap as `int32`;
`header_size = 3 * 4` is a plain Python `int`. -/
def setupVals (height width : ℤ) : SetupVals :=
  let numPixels := int32Wrap (height * width)
  let headerSize : ℤ := 3 * 4
  let payloadSize := int32Wrap (int32Wrap (numPixels * 2) * 4)
  { numPixels := numPixels, headerSize := headerSize,
    payloadSize := payloadSize,
    packetSize := int32Wrap (headerSize + payloadSize) }

/-- Python exception classes relevant to `start` (`ConnectionError` is a
proper subclass of `OSError`; an `OSError` instance is not a
`ConnectionError`). -/
inductive PyExcType where
  | oSError
  | connectionError
deriving DecidableEq

/-- A raised Python exception: its class and its message. -/
structure Raised where
  excType : PyExcType
  msg : String
deriving DecidableEq

/-- Outcome of the socket-connect step inside `start`. -/
inductive ConnectOutcome where
  | success
  | dnsFailure
  | refused
  | timedOut
deriving DecidableEq

/-- Lifecycle state the sensor object tracks: the `_is_start` flag and
whether `close()` has been called on the socket. -/
structure SensorLifeState where
  isStart : Bool
  socketClosed : Bool
deriving DecidableEq

/-- State set up by `__init__`. -/
def initSensorState : SensorLifeState := { isStart := false, socketClosed := false }

/-- The one exception `start` raises, for every failure inside its
`try` block. -/
def connectFailExc : Raised :=
  { excType := .oSError,
    msg := "[!] Could not connect to the server. Make sure the C++ file is running." }

/-- `PhoXiSensor.start` (phoxi.py lines 44-51): connect, run `_setup`,
sleep, set `_is_start`; a bare `except:` turns every failure into one
`OSError`.  `setupOk` abstracts whether `_setup` (modelled separately by
`setupVals`) raised. -/
def start (st : SensorLifeState) (c : ConnectOutcome) (setupOk : Bool) :
    Except Raised SensorLifeState :=
  match c with
  | .success => if setupOk then .ok { st with isStart := true } else .error connectFailExc
  | _ => .error connectFailExc

/-- Class of the exception a `start` result raised, if any. -/
def excTypeOf (r : Except Raised SensorLifeState) : Option PyExcType :=
  match r with
  | .error ex => some ex.excType
  | .ok _ => none

/-- Observable outcome of `stop`: the new state, the returned flag, and
whether a warning was logged. -/
structure StopResult where
  newState : SensorLifeState
  returned : Bool
  warned : Bool
deriving DecidableEq

/-- `PhoXiSensor.stop` (phoxi.py lines 53-59); the source body contains no
`raise`, so the model is a total function. -/
def stop (st : SensorLifeState) : StopResult :=
  if st.isStart = false then { newState := st, returned := false, warned := true }
  else { newState := { isStart := false, socketClosed := true },
         returned := true, warned := false }

/-- Calibration record a successfully parsed calibration file yields
(`intrinsics` = fx, fy, cx, cy; 5 distortion numbers; 6 extrinsic numbers).
Any failure inside the `try` block of `_init_params` — missing file,
malformed JSON, missing key, short list — is folded into the absent case
of the `Option` below. -/
structure CalibRecord where
  intrinsics : List ℚ
  distortion : List ℚ
  extrinsics : List ℚ
deriving DecidableEq

/-- A numpy array of one or two dimensions, as the two branches of
`_init_params` produce differently shaped `_dist`/`_extr`. -/
inductive NpArray where
  | d1 (v : List ℚ)
  | d2 (m : List (List ℚ))
deriving DecidableEq

/-- Camera parameters stored on the sensor object. -/
structure CamParams where
  intr : List (List ℚ)
  dist : NpArray
  extr : NpArray
deriving DecidableEq

/-- `PhoXiSensor._get_factory_intrinsics_distortion` (phoxi.py lines 73-95),
intrinsic part.  `line i` is the float value parsed from 0-indexed line `i`
of the packaged `intrinsic_parameters.txt`; for `"low"` resolution the
matrix is divided by 2 elementwise and entry `[2, 2]` is reset to 1. -/
def factoryIntr (line : ℕ → ℚ) (resolution : String) : List (List ℚ) :=
  let intr : List (List ℚ) :=
    [[line 2, 0, line 4],
     [0, line 2, line 7],
     [0, 0, 1]]
  if resolution = "low" then
    let halved := intr.map (List.map fun x => x / 2)
    halved.set 2 ((halved.getD 2 []).set 2 1)
  else intr

/-- Distortion part of `_get_factory_intrinsics_distortion`: lines 15-19. -/
def factoryDist (line : ℕ → ℚ) : List ℚ :=
  [line 15, line 16, line 17, line 18, line 19]

/-- `PhoXiSensor._set_default_params` (phoxi.py lines 97-104): factory
intrinsics and distortion, and `np.zeros((1, 6))` extrinsics. -/
def setDefaultParams (line : ℕ → ℚ) (resolution : String) : CamParams :=
  { intr := factoryIntr line resolution,
    dist := NpArray.d1 (factoryDist line),
    extr := NpArray.d2 [List.replicate 6 0] }

/-- `PhoXiSensor._init_params` (phoxi.py lines 106-124).  `calib = none`:
no calibration file provided; `calib = some none`: a path was provided but
opening/parsing/indexing it failed (the `except` branch); `calib = some
(some p)`: the file parsed, with lists long enough to index. -/
def initParams (line : ℕ → ℚ) (resolution : String)
    (calib : Option (Option CalibRecord)) : CamParams :=
  match calib with
  | some (some p) =>
    { intr := [[p.intrinsics.getD 0 0, 0, p.intrinsics.getD 2 0],
               [0, p.intrinsics.getD 1 0, p.intrinsics.getD 3 0],
               [0, 0, 1]],
      dist := NpArray.d2 [p.distortion],
      extr := NpArray.d2 [p.extrinsics] }
  | some none => setDefaultParams line resolution
  | none => setDefaultParams line resolution

/-- Entry `[i][j]` of a matrix stored as a row list. -/
def mget (m : List (List ℚ)) (i j : ℕ) : ℚ := (m.getD i []).getD j 0

/-- A packet like `examplePacket` whose grayscale plane is uniformly
`5.0` (bytes of `5.0f` are `0x40A00000`). -/
def uniformGrayPacket : List ℕ :=
  [2, 0, 0, 0,  2, 0, 0, 0,  7, 0, 0, 0,
   0, 0, 160, 64,  0, 0, 160, 64,  0, 0, 160, 64,  0, 0, 160, 64,
   0, 0, 122, 68,  0, 0, 250, 68,  0, 128, 59, 69,  0, 0, 122, 69]

theorem toRows_flatten (h w : ℕ) (l : List ℚ) (hl : l.length = h * w) :
    (toRows h w l).flatten = l := by
  induction h generalizing l with
  | zero =>
    rw [Nat.zero_mul] at hl
    rw [List.length_eq_zero.mp hl]
    rfl
  | succ n ih =>
    have hd : (l.drop w).length = n * w := by
      rw [List.length_drop, hl, Nat.succ_mul]
      omega
    simp only [toRows, List.flatten_cons]
    rw [ih (l.drop w) hd, List.take_append_drop]

theorem foldl_min_uniform (c : ℚ) (l : List ℚ) (h : ∀ x ∈ l, x = c) :
    l.foldl min c = c := by
  induction l with
  | nil => rfl
  | cons b t ih =>
    have hb : b = c := h b (List.mem_cons_self b t)
    simp only [List.foldl_cons, hb, min_self]
    exact ih fun x hx => h x (List.mem_cons_of_mem b hx)

theorem foldl_max_uniform (c : ℚ) (l : List ℚ) (h : ∀ x ∈ l, x = c) :
    l.foldl max c = c := by
  induction l with
  | nil => rfl
  | cons b t ih =>
    have hb : b = c := h b (List.mem_cons_self b t)
    simp only [List.foldl_cons, hb, max_self]
    exact ih fun x hx => h x (List.mem_cons_of_mem b hx)

theorem getPacketLoop_chunks_enough (ps : ℕ) :
    ∀ (cs : List (List ℕ)) (data : List ℕ), ps ≤ (data ++ cs.flatten).length →
      (getPacketLoop ps (cs.map RecvEvent.chunk) data).map (fun d => d.take ps) =
        some ((data ++ cs.flatten).take ps) := by
  intro cs
  induction cs with
  | nil =>
    intro data h
    simp only [List.flatten_nil, List.append_nil] at h ⊢
    simp only [List.map_nil, getPacketLoop, if_pos h, Option.map_some']
  | cons c rest ih =>
    intro data h
    simp only [List.map_cons, getPacketLoop]
    by_cases hd : ps ≤ data.length
    · rw [if_pos hd, Option.map_some', List.take_append_of_le_length hd]
    · rw [if_neg hd]
      have h' : ps ≤ ((data ++ c) ++ rest.flatten).length := by
        simpa [List.append_assoc] using h
      have := ih (data ++ c) h'
      simpa [List.append_assoc] using this

theorem getPacketLoop_chunks_short (ps : ℕ) :
    ∀ (cs : List (List ℕ)) (data : List ℕ), (data ++ cs.flatten).length < ps →
      getPacketLoop ps (cs.map RecvEvent.chunk ++ [RecvEvent.timedOut]) data =
        some (data ++ cs.flatten) := by
  intro cs
  induction cs with
  | nil =>
    intro data _
    simp only [List.flatten_nil, List.append_nil, List.map_nil, List.nil_append]
    rfl
  | cons c rest ih =>
    intro data h
    have hd : ¬ ps ≤ data.length := by
      simp only [List.length_append] at h
      omega
    simp only [List.map_cons, List.cons_append, getPacketLoop, if_neg hd]
    have h' : ((data ++ c) ++ rest.flatten).length < ps := by
      simpa [List.append_assoc] using h
    have := ih (data ++ c) h'
    simpa [List.append_assoc] using this

/-- C3: for every partition of a `packet_size`-byte payload into successive
chunks (however small), the accumulation loop of `_get_packet` returns
exactly the concatenation of the chunks truncated to `packet_size` bytes —
here the concatenation itself, since it is `packet_size` bytes long. -/
theorem getPacket_reassembles_partition (ps : ℕ) (cs : List (List ℕ))
    (h : cs.flatten.length = ps) :
    getPacket ps (cs.map RecvEvent.chunk) = some cs.flatten := by
  unfold getPacket
  have := getPacketLoop_chunks_enough ps cs [] (by simp [h])
  simp only [List.nil_append] at this
  rw [this, ← h, List.take_length]

theorem getPacket_reassembles_partition_witness :
    getPacket 3 ([[1], [2], [3]].map RecvEvent.chunk) = some [1, 2, 3] := by
  have := getPacket_reassembles_partition 3 [[1], [2], [3]] (by decide)
  simpa using this

/-- C6: the buffer `_get_packet` returns is the accumulated data sliced to
at most `packet_size` bytes: (1) any returned buffer has length at most
`packet_size`; (2) a receive timeout before `packet_size` bytes have
accumulated returns the undersized concatenation without an error;
(3) surplus bytes beyond `packet_size` are silently discarded — the result
is the concatenation truncated to `packet_size`. -/
theorem getPacket_truncation_invariants :
    (∀ (ps : ℕ) (evs : List RecvEvent) (r : List ℕ),
        getPacket ps evs = some r → r.length ≤ ps) ∧
    (∀ (ps : ℕ) (cs : List (List ℕ)), cs.flatten.length < ps →
        getPacket ps (cs.map RecvEvent.chunk ++ [RecvEvent.timedOut]) =
          some cs.flatten) ∧
    (∀ (ps : ℕ) (cs : List (List ℕ)), ps ≤ cs.flatten.length →
        getPacket ps (cs.map RecvEvent.chunk) = some (cs.flatten.take ps)) := by
  refine ⟨?_, ?_, ?_⟩
  · intro ps evs r h
    unfold getPacket at h
    cases hl : getPacketLoop ps evs [] with
    | none => rw [hl] at h; simp at h
    | some d =>
      rw [hl, Option.map_some'] at h
      have hd : d.take ps = r := Option.some.inj h
      rw [← hd, List.length_take]
      exact min_le_left ps d.length
  · intro ps cs h
    unfold getPacket
    rw [getPacketLoop_chunks_short ps cs [] (by simpa using h), Option.map_some',
      List.nil_append, List.take_of_length_le (le_of_lt h)]
  · intro ps cs h
    unfold getPacket
    have := getPacketLoop_chunks_enough ps cs [] (by simpa using h)
    simpa using this

theorem getPacket_truncation_invariants_witness :
    ([1, 2] : List ℕ).length ≤ 2 ∧
    getPacket 5 ([[9]].map RecvEvent.chunk ++ [RecvEvent.timedOut]) = some [9] ∧
    getPacket 2 ([[1, 2, 3]].map RecvEvent.chunk) = some ([[1, 2, 3]].flatten.take 2) :=
  ⟨getPacket_truncation_invariants.1 2 [RecvEvent.chunk [1, 2]] [1, 2]
      (by simpa using getPacket_truncation_invariants.2.2 2 [[1, 2]] (by decide)),
   by simpa using getPacket_truncation_invariants.2.1 5 [[9]] (by decide),
   getPacket_truncation_invariants.2.2 2 [[1, 2, 3]] (by decide)⟩

/-- C5: whenever the grayscale plane decoded by `_process_packet` is uniform
(every value equal to some `c`, plane nonempty) and the packet is otherwise
well-formed, the divisor `gray.max() - gray.min()` of the normalization is
zero and decoding reaches the division-by-zero error branch instead of
producing a frame. -/
theorem processPacket_uniform_gray_divByZero
    (headerSize numPixels height width : ℕ) (packet : List ℕ) (c : ℚ)
    (fid : ℤ) (rest : List ℤ) (grayFlat depthFlat : List ℚ)
    (h1 : frombufferInt32 (pySlice packet 8 headerSize) = .ok (fid :: rest))
    (h2 : frombufferFloat32 (pySlice packet headerSize (headerSize + numPixels * 4)) =
      .ok grayFlat)
    (h3 : frombufferFloat32 (packet.drop (numPixels * 4 + headerSize)) = .ok depthFlat)
    (h4 : grayFlat.length = height * width)
    (h5 : depthFlat.length = height * width)
    (h6 : grayFlat ≠ [])
    (h7 : ∀ x ∈ grayFlat, x = c) :
    processPacket headerSize numPixels height width packet = .error .divByZero := by
  obtain ⟨g0, grest, rfl⟩ := List.exists_cons_of_ne_nil h6
  have hg0 : g0 = c := h7 g0 (List.mem_cons_self g0 grest)
  have hmem : ∀ x ∈ grest, x = c := fun x hx => h7 x (List.mem_cons_of_mem g0 hx)
  have hmin : grest.foldl min g0 = c := by rw [hg0]; exact foldl_min_uniform c grest hmem
  have hmax : grest.foldl max g0 = c := by rw [hg0]; exact foldl_max_uniform c grest hmem
  simp only [processPacket, h1, h2, h3, reshapeChecked, h4, h5, if_pos,
    toRows_flatten height width (g0 :: grest) h4, hmin, hmax, sub_self, ite_true]

theorem processPacket_uniform_gray_divByZero_witness :
    processPacket 12 4 2 2 uniformGrayPacket = .error .divByZero :=
  processPacket_uniform_gray_divByZero 12 4 2 2 uniformGrayPacket 5 7 []
    [5, 5, 5, 5] [1000, 2000, 3000, 4000]
    (by decide)
    (by norm_num [frombufferFloat32, pySlice, uniformGrayPacket, chunks4,
      float32OfBytes, wordOfBytes])
    (by norm_num [frombufferFloat32, uniformGrayPacket, chunks4,
      float32OfBytes, wordOfBytes])
    (by decide) (by decide) (by decide) (by decide)

theorem int32Wrap_eq_self {z : ℤ} (h0 : -2 ^ 31 ≤ z) (h1 : z < 2 ^ 31) :
    int32Wrap z = z := by
  unfold int32Wrap
  have hlo : (0 : ℤ) ≤ z + 2 ^ 31 := by linarith
  have hhi : z + 2 ^ 31 < 2 ^ 32 := by norm_num at h1 ⊢; linarith
  rw [Int.emod_eq_of_lt hlo hhi]
  ring

/-- C2 (amended): for `height, width > 0` learned in the handshake, as long
as `height * width * 2 * 4 + 12` fits in `int32` (no wraparound of the
`numpy` `int32` products), `_setup` stores `header_size = 12`,
`pixel_count = height * width`, `payload_size = pixel_count * 2 * 4`, and
`packet_size = 12 + height * width * 2 * 4`. -/
theorem setupVals_packet_size_no_overflow (height width : ℤ)
    (hh : 0 < height) (hw : 0 < width)
    (hfit : height * width * 2 * 4 + 12 < 2 ^ 31) :
    (setupVals height width).headerSize = 12 ∧
    (setupVals height width).numPixels = height * width ∧
    (setupVals height width).payloadSize = height * width * 2 * 4 ∧
    (setupVals height width).packetSize = 12 + height * width * 2 * 4 := by
  have hpos : 0 < height * width := mul_pos hh hw
  have h1 : height * width < 2 ^ 31 := by nlinarith
  have h2 : height * width * 2 < 2 ^ 31 := by nlinarith
  have h3 : height * width * 2 * 4 < 2 ^ 31 := by nlinarith
  have e1 : int32Wrap (height * width) = height * width :=
    int32Wrap_eq_self (by nlinarith) h1
  have e2 : int32Wrap (height * width * 2) = height * width * 2 :=
    int32Wrap_eq_self (by nlinarith) h2
  have e3 : int32Wrap (height * width * 2 * 4) = height * width * 2 * 4 :=
    int32Wrap_eq_self (by nlinarith) h3
  have e4 : int32Wrap (12 + height * width * 2 * 4) = 12 + height * width * 2 * 4 :=
    int32Wrap_eq_self (by nlinarith) (by linarith)
  simp only [setupVals]
  rw [e1, e2, e3]
  norm_num
  rw [e4]

theorem setupVals_packet_size_no_overflow_witness :
    0 < (2 : ℤ) ∧ (2 : ℤ) * 2 * 2 * 4 + 12 < 2 ^ 31 ∧
    ((setupVals 2 2).headerSize = 12 ∧
     (setupVals 2 2).numPixels = 2 * 2 ∧
     (setupVals 2 2).payloadSize = 2 * 2 * 2 * 4 ∧
     (setupVals 2 2).packetSize = 12 + 2 * 2 * 2 * 4) :=
  ⟨by decide, by decide,
   setupVals_packet_size_no_overflow 2 2 (by decide) (by decide) (by decide)⟩

/-- C2 counterexample: `height = width = 65536` are positive values the
handshake can deliver, yet the stored packet size is 12 — the `int32`
product `65536 * 65536` wraps to 0 — and not `12 + 65536 * 65536 * 2 * 4`
as the claim states for every positive pair. -/
theorem setupVals_overflow_counterexample :
    0 < (65536 : ℤ) ∧
    (setupVals 65536 65536).packetSize = 12 ∧
    (setupVals 65536 65536).packetSize ≠ 12 + 65536 * 65536 * 2 * 4 := by
  decide

/-- C7 counterexample: on a refused connection, `start` raises an
exception whose class is `OSError`, not `ConnectionError` (in Python,
`ConnectionError` is a proper subclass of `OSError`, and the source writes
`raise OSError(...)`). -/
theorem start_connectionError_counterexample :
    ¬ excTypeOf (start initSensorState ConnectOutcome.refused true)
        = some PyExcType.connectionError := by
  decide

/-- C7 (amended): every failure of the connect step makes `start` raise
the one fixed `OSError` with the opaque could-not-connect message — the
same single condition for DNS failure, refusal, or timeout — with no
partial-state recovery (the caller sees only the raised exception). -/
theorem start_failure_raises_oSError (st : SensorLifeState)
    (setupOk : Bool) (c : ConnectOutcome) (hc : c ≠ ConnectOutcome.success) :
    start st c setupOk = .error connectFailExc ∧
    connectFailExc.excType = PyExcType.oSError ∧
    connectFailExc.msg =
      "[!] Could not connect to the server. Make sure the C++ file is running." := by
  refine ⟨?_, rfl, rfl⟩
  cases c with
  | success => exact absurd rfl hc
  | dnsFailure => rfl
  | refused => rfl
  | timedOut => rfl

theorem start_failure_raises_oSError_witness :
    start initSensorState ConnectOutcome.refused true = .error connectFailExc ∧
    connectFailExc.excType = PyExcType.oSError ∧
    connectFailExc.msg =
      "[!] Could not connect to the server. Make sure the C++ file is running." :=
  start_failure_raises_oSError initSensorState true ConnectOutcome.refused (by decide)

/-- C8: `stop` on a state that is not started (never started, or already
stopped) raises nothing (the model is a total function, as the source body
contains no raise), logs a warning, returns `False`, and leaves the state
unchanged; after a successful `start`, `stop` closes the socket and
returns `True`. -/
theorem stop_lifecycle (st stStarted : SensorLifeState) (c : ConnectOutcome)
    (setupOk : Bool) (hns : st.isStart = false)
    (hstart : start st c setupOk = .ok stStarted) :
    stop st = { newState := st, returned := false, warned := true } ∧
    stop stStarted = { newState := { isStart := false, socketClosed := true },
                       returned := true, warned := false } := by
  constructor
  · simp [stop, hns]
  · cases c with
    | success =>
      cases setupOk with
      | true =>
        simp only [start, if_pos] at hstart
        rw [Except.ok.injEq] at hstart
        rw [← hstart]
        simp [stop]
      | false => simp [start] at hstart
    | dnsFailure => simp [start] at hstart
    | refused => simp [start] at hstart
    | timedOut => simp [start] at hstart

theorem stop_lifecycle_witness :
    stop initSensorState =
      { newState := initSensorState, returned := false, warned := true } ∧
    stop { isStart := true, socketClosed := false } =
      { newState := { isStart := false, socketClosed := true },
        returned := true, warned := false } :=
  stop_lifecycle initSensorState { isStart := true, socketClosed := false }
    ConnectOutcome.success true (by decide) (by decide)

/-- C9: when the calibration file path does not exist or its content fails
to parse (the `except` branch of `_init_params`), construction swallows the
error and the stored parameters equal the factory defaults for the
configured resolution: factory intrinsics and distortion from the packaged
parameter file, and zero extrinsics. -/
theorem initParams_fallback_factory_defaults (line : ℕ → ℚ) (resolution : String) :
    initParams line resolution (some none) = setDefaultParams line resolution ∧
    (initParams line resolution (some none)).intr = factoryIntr line resolution ∧
    (initParams line resolution (some none)).dist = NpArray.d1 (factoryDist line) ∧
    (initParams line resolution (some none)).extr = NpArray.d2 [List.replicate 6 0] :=
  ⟨rfl, rfl, rfl, rfl⟩

/-- C10: for the same factory parameter file, every focal and
principal-point entry of the `"low"`-resolution intrinsic matrix is half
the corresponding `"high"`-resolution entry, while entry `[2][2]` is 1. -/
theorem factoryIntr_low_half_scaling (line : ℕ → ℚ) :
    mget (factoryIntr line "low") 0 0 = mget (factoryIntr line "high") 0 0 / 2 ∧
    mget (factoryIntr line "low") 1 1 = mget (factoryIntr line "high") 1 1 / 2 ∧
    mget (factoryIntr line "low") 0 2 = mget (factoryIntr line "high") 0 2 / 2 ∧
    mget (factoryIntr line "low") 1 2 = mget (factoryIntr line "high") 1 2 / 2 ∧
    mget (factoryIntr line "low") 2 2 = 1 :=
  ⟨rfl, rfl, rfl, rfl, rfl⟩

end PyPhoxi
